import Mathlib

/-!
# Verification of `merge_metadata.py` (Google-Takeout-Metadate-Merger)

A shallow embedding of the sidecar-resolution function `find_json_for_media`,
the per-file processing loop of `main`, the scan that excludes the `Completed`
output subtree, and the GPS guard of the EXIF-building block, together with
theorems settling the specification claims about them.

Paths are modelled as `String`s using `/` as the separator, consistently
rooted (the script compares `os.path.abspath` results; we model paths as
already absolute/normalized, with no repeated separators).  Python string
operations are embedded on `String.data : List Char`.
-/

set_option autoImplicit false

namespace MergeMetadata

/-- Embeds Python `s.startswith(pre)`: `pre` is a character-list prefix of `s`. -/
def pyStartswith (s pre : String) : Bool := pre.data.isPrefixOf s.data

/-- Embeds Python `s.endswith(suf)`. -/
def pyEndswith (s suf : String) : Bool := suf.data.isSuffixOf s.data

/-- Embeds Python `s.lower()` (call sites only use ASCII names). -/
def pyLower (s : String) : String := ⟨s.data.map Char.toLower⟩

/-- Embeds Python `s.strip()`: drop leading and trailing whitespace. -/
def pyStrip (s : String) : String :=
  ⟨((s.data.dropWhile Char.isWhitespace).reverse.dropWhile Char.isWhitespace).reverse⟩

/-- Split a character list at its last `/`: `some (before, after)` when a
slash exists.  Backbone of `os.path.dirname` / `os.path.basename`. -/
def lastSlashSplit : List Char → Option (List Char × List Char)
  | [] => none
  | c :: rest =>
    match lastSlashSplit rest with
    | some (b, a) => some (c :: b, a)
    | none => if c = '/' then some ([], rest) else none

/-- Embeds `os.path.basename` for normalized paths: the part after the last `/`. -/
def pyBasename (s : String) : String :=
  match lastSlashSplit s.data with
  | some (_, a) => ⟨a⟩
  | none => s

/-- Embeds `os.path.dirname` for normalized paths (no repeated separators):
the part before the last `/`, `""` when there is no separator. -/
def pyDirname (s : String) : String :=
  match lastSlashSplit s.data with
  | some (b, _) => ⟨b⟩
  | none => ""

/-- Split a character list at its last `.`: `some (before, fromDot)` where
`fromDot` starts with the dot. -/
def lastDotSplit : List Char → Option (List Char × List Char)
  | [] => none
  | c :: rest =>
    match lastDotSplit rest with
    | some (b, a) => some (c :: b, a)
    | none => if c = '.' then some ([], '.' :: rest) else none

/-- Embeds `os.path.splitext` for strings without path separators (every call
site passes a basename): split at the last dot, except that a dot with only
dots before it starts no extension (`".bashrc"` has none). -/
def pySplitext (s : String) : String × String :=
  match lastDotSplit s.data with
  | some (b, a) => if b.any (fun c => c ≠ '.') then (⟨b⟩, ⟨a⟩) else (s, "")
  | none => (s, "")

/-- Does a character list match the regex fragment `\s*\(\d+\)$`?  Helper for
the `re.match(r'(.+?)\s*\(\d+\)$', base_name)` test of `find_json_for_media`. -/
def restMatchesNum (l : List Char) : Bool :=
  match l.dropWhile Char.isWhitespace with
  | '(' :: rest =>
    let ds := rest.takeWhile Char.isDigit
    !ds.isEmpty && rest.drop ds.length == [')']
  | _ => false

/-- Lazy-group search for `re.match(r'(.+?)\s*\(\d+\)$', s)`: the shortest
nonempty prefix whose remainder matches `\s*\(\d+\)$`; returns group 1. -/
def numSplitGo (pre : List Char) : List Char → Option (List Char)
  | [] => none
  | c :: rest =>
    if restMatchesNum rest then some (pre ++ [c]) else numSplitGo (pre ++ [c]) rest

/-- Embeds `re.sub(r'[-_]edited$', '', s, flags=re.IGNORECASE)`. -/
def stripEdited (s : String) : String :=
  if pyEndswith (pyLower s) "-edited" || pyEndswith (pyLower s) "_edited" then
    ⟨s.data.take (s.data.length - 7)⟩
  else s

/-- Embeds the `search_candidates` list built in `find_json_for_media`
(lines 81-97): the exact name, the stem, the duplicate-number variant
`base.ext(N).json`, and the `-edited`/`_edited` variants. -/
def searchCandidates (media_filename base_name ext : String) : List String :=
  let c0 := [media_filename ++ ".json", base_name ++ ".json"]
  let c1 :=
    match numSplitGo [] base_name.data with
    | some g =>
      let original_base := pyStrip ⟨g⟩
      let numbered_part : String := ⟨base_name.data.drop original_base.data.length⟩
      c0 ++ [original_base ++ ext ++ numbered_part ++ ".json"]
    | none => c0
  if pyEndswith (pyLower base_name) "-edited" || pyEndswith (pyLower base_name) "_edited" then
    let ob := stripEdited base_name
    c1 ++ [ob ++ ext ++ ".json", ob ++ ".json"]
  else c1

/-- Embeds lookup in `json_map = {os.path.basename(f): f for f in all_json_files}`:
a Python dict comprehension keeps the last file with a given basename. -/
def jsonMapLookup (all_json_files : List String) (key : String) : Option String :=
  all_json_files.reverse.find? (fun f => pyBasename f == key)

/-- Embeds the candidate loop of `find_json_for_media` (lines 99-101): the
first candidate name present in the basename map wins. -/
def tier1Lookup (all_json_files : List String) : List String → Option String
  | [] => none
  | c :: rest =>
    match jsonMapLookup all_json_files c with
    | some f => some f
    | none => tier1Lookup all_json_files rest

/-- The exact-reconstructed-name phase of `find_json_for_media`
(candidate construction plus map lookup, lines 75-101). -/
def exactLookup (media_filepath : String) (all_json_files : List String) : Option String :=
  let media_filename := pyBasename media_filepath
  let se := pySplitext media_filename
  tier1Lookup all_json_files (searchCandidates media_filename se.1 se.2)

/-- The broader-search predicate (lines 103-112): same directory, and the
json filename without its own `.json` extension is a prefix of the media
filename. -/
def broaderPred (media_dir media_filename : String) (json_path : String) : Bool :=
  pyDirname json_path == media_dir &&
    pyStartswith media_filename (pySplitext (pyBasename json_path)).1

/-- The final-fallback predicate (lines 114-119): same directory, and the
json filename starts with the media filename or with its stem. -/
def fallbackPred (media_dir media_filename base_name : String) (json_path : String) : Bool :=
  pyDirname json_path == media_dir &&
    (pyStartswith (pyBasename json_path) media_filename ||
      pyStartswith (pyBasename json_path) base_name)

/-- Embeds `find_json_for_media(media_filepath, all_json_files)`
(merge_metadata.py lines 71-121). -/
def find_json_for_media (media_filepath : String) (all_json_files : List String) :
    Option String :=
  let media_filename := pyBasename media_filepath
  let se := pySplitext media_filename
  match exactLookup media_filepath all_json_files with
  | some f => some f
  | none =>
    let media_dir := pyDirname media_filepath
    match all_json_files.find? (broaderPred media_dir media_filename) with
    | some f => some f
    | none => all_json_files.find? (fallbackPred media_dir media_filename se.1)

example : find_json_for_media "a/x.jpg" ["b/x.jpg.json"] = some "b/x.jpg.json" := by decide

example : find_json_for_media "a/x-edited.jpg" ["a/x.jpg.json"] = some "a/x.jpg.json" := by
  decide

example : find_json_for_media "a/img(1).jpg" ["a/img.jpg(1).json"] = some "a/img.jpg(1).json" := by
  decide

example : find_json_for_media "d/abcd.jpg" ["d/ab.json", "d/abc.json"] = some "d/ab.json" := by
  decide

example : find_json_for_media "d/clip.mp4" ["d/clip.jpg.json"] = some "d/clip.jpg.json" := by
  decide

example : find_json_for_media "d/clip(1).mp4" ["d/clip.jpg(1).json"] = none := by decide

/-!
## The per-file processing loop of `main` (lines 204-313)

Filesystem effects are abstracted into an `Env` of Boolean oracles saying
which operations raise for which path; the loop body is otherwise translated
branch for branch.  An exception anywhere in the per-file `try` block is
caught at line 308 and counts the file as skipped.
-/

/-- Which filesystem/parse operations raise, per path.  `readFails j` models
an exception while opening/JSON-decoding sidecar `j` (line 211-212);
`hasTimestamp j` models `'photoTakenTime' in metadata and 'timestamp' in
metadata['photoTakenTime']` for sidecar `j` (line 214); `writeFails p` models
an exception inside the internal-metadata `try` block (lines 222-279, caught
at 280); `utimeFails p` models `os.utime` raising (line 284); `moveFails p`
models `os.makedirs`/`shutil.move` raising (lines 289-292). -/
structure Env where
  readFails : String → Bool
  hasTimestamp : String → Bool
  writeFails : String → Bool
  utimeFails : String → Bool
  moveFails : String → Bool

/-- Per-file outcome, as distinguished by the loop's branches and counters. -/
inductive Outcome where
  | processed
  | skippedNoJson
  | skippedNoTimestamp
  | skippedError
  deriving DecidableEq, Repr

/-- Observable result of the loop body for one media file: its outcome, the
path where the file ends up, whether `os.utime` ran, whether the internal
metadata write succeeded, and which sidecar was used. -/
structure FileResult where
  outcome : Outcome
  finalPath : String
  timesSet : Bool
  internalWritten : Bool
  sidecarUsed : Option String
  deriving DecidableEq, Repr

/-- Destination of `shutil.move` (lines 287-292): `os.path.join(completed,
os.path.relpath(os.path.dirname(p), root), os.path.basename(p))`, which for a
path `p` given relative to the root is `completed ++ "/" ++ p`. -/
def destPath (completed p : String) : String := completed ++ "/" ++ p

/-- Embeds the body of the `for media_filepath in all_media_files` loop
(lines 204-313) for one media file. -/
def processMedia (env : Env) (completed : String) (pool : List String) (p : String) :
    FileResult :=
  match find_json_for_media p pool with
  | none => ⟨.skippedNoJson, p, false, false, none⟩
  | some j =>
    if env.readFails j then ⟨.skippedError, p, false, false, some j⟩
    else if env.hasTimestamp j then
      let wrote := !env.writeFails p
      if env.utimeFails p then ⟨.skippedError, p, false, wrote, some j⟩
      else if env.moveFails p then ⟨.skippedError, p, true, wrote, some j⟩
      else ⟨.processed, destPath completed p, true, wrote, some j⟩
    else ⟨.skippedNoTimestamp, p, false, false, some j⟩

/-- Loop state: the `processed_files` / `skipped_files` counters plus the
ledger of per-file results (the log entries, in order). -/
structure RunState where
  processedCount : Nat
  skippedCount : Nat
  results : List FileResult
  deriving DecidableEq, Repr

/-- One iteration of the loop: process a file, bump the counters, append to
the ledger. -/
def stepMedia (env : Env) (completed : String) (pool : List String)
    (st : RunState) (p : String) : RunState :=
  let r := processMedia env completed pool p
  { processedCount := st.processedCount + (if r.outcome = .processed then 1 else 0)
    skippedCount := st.skippedCount + (if r.outcome = .processed then 0 else 1)
    results := st.results ++ [r] }

/-- The whole loop over `all_media_files`. -/
def runAll (env : Env) (completed : String) (pool : List String)
    (medias : List String) : RunState :=
  medias.foldl (stepMedia env completed pool) ⟨0, 0, []⟩

/-!
## The scan (lines 179-194) and whole-run model

The scan walks the tree and skips any directory whose absolute path starts
with the absolute path of the `Completed` directory (line 181), collecting
media and `.json` files from the rest.
-/

/-- The exclusion test of line 181 applied to a file: its directory's path
starts (as a string) with the `Completed` directory's path. -/
def excludedDir (completed p : String) : Bool := pyStartswith (pyDirname p) completed

/-- Files surviving the scan: those not under (string-prefix sense) the
output directory. -/
def scanList (completed : String) (l : List String) : List String :=
  l.filter (fun p => !excludedDir completed p)

/-- The filesystem as the run observes it: current media paths and sidecar
paths. -/
structure Tree where
  media : List String
  jsons : List String
  deriving DecidableEq, Repr

/-- One whole run of `main` (scan, then the processing loop; the user-gated
deletion prompts are answered "no"): returns the `processed_files` count and
the tree afterwards, where each processed file now lives under `completed`
and every other file is unmoved. -/
def runOnce (env : Env) (completed : String) (t : Tree) : Nat × Tree :=
  let ms := scanList completed t.media
  let pool := scanList completed t.jsons
  let st := runAll env completed pool ms
  let newMedia := t.media.filter (fun p => excludedDir completed p) ++
    st.results.map (·.finalPath)
  (st.processedCount, ⟨newMedia, t.jsons⟩)

/-- Environment in which no filesystem operation fails and every sidecar
carries a timestamp. -/
def allOkEnv : Env :=
  ⟨fun _ => false, fun _ => true, fun _ => false, fun _ => false, fun _ => false⟩

example :
    (runAll allOkEnv "Completed" ["a/x.jpg.json"] ["a/x.jpg", "a/x-edited.jpg"]).results.map
      (·.sidecarUsed) = [some "a/x.jpg.json", some "a/x.jpg.json"] := by decide

/-!
## The GPS guard of the EXIF-building block (lines 241-245)

`geoData` is modelled with `Option`al fields (`none` = key absent).  JSON
numbers are modelled as rationals: the only comparison performed is
`latitude != 0.0`, which on floats holds exactly when the represented value
is nonzero (`-0.0 != 0.0` is false), so `ℚ` is faithful for that test.
-/

/-- The `geoData` object of a sidecar payload. -/
structure GeoData where
  latitude : Option ℚ
  longitude : Option ℚ
  deriving DecidableEq, Repr

/-- Embeds lines 241-245: the GPS pair stored into the EXIF dict.
`metadata['geoData']['longitude']` (line 243) is looked up only after the
guard passes and raises `KeyError` when absent, modelled as `.error ()`. -/
def buildGps : Option GeoData → Except Unit (Option (ℚ × ℚ))
  | some g =>
    match g.latitude with
    | some lat =>
      if lat ≠ 0 then
        match g.longitude with
        | some lon => .ok (some (lat, lon))
        | none => .error ()
      else .ok none
    | none => .ok none
  | none => .ok none

/-- Result of the image-kind internal write (lines 223-262): the dates are
always placed in the EXIF dict (lines 235-238) and the dict is written out at
lines 256-262, unless an exception inside the block aborts it (caught at
line 280), in which case nothing internal is written. -/
structure ImageWriteResult where
  datesWritten : Bool
  gps : Option (ℚ × ℚ)
  deriving DecidableEq, Repr

/-- Embeds the image branch of the internal-metadata `try` block, restricted
to its dependence on `geoData`: a `KeyError` while reading the longitude
aborts the whole block before `piexif.insert`/`image.save` runs. -/
def imageInternalWrite (geo : Option GeoData) : Option ImageWriteResult :=
  match buildGps geo with
  | .ok g => some ⟨true, g⟩
  | .error _ => none

/-- Whether GPS coordinates end up written into the file's EXIF. -/
def gpsWritten (geo : Option GeoData) : Bool :=
  match imageInternalWrite geo with
  | some r => r.gps.isSome
  | none => false

example : gpsWritten (some ⟨some 0, some 37⟩) = false := by decide
example : gpsWritten (some ⟨some 12, some 0⟩) = true := by decide
example : gpsWritten (some ⟨some 5, none⟩) = false := by decide

/-!
## Spec-modelled Tier 2 candidates

The specification's resolver has a tier the source does not: "Tier 2 —
extension substitution".  To state claims about it we model just the
substituted candidate list.
-/

/-- Modelled from the spec: "Tier 2 — extension substitution: ... retry
Tier 1's candidate list substituting a still-image extension for the media's
own extension" (§4.2).  No such retry exists in `find_json_for_media`; this
builds the candidate list that retry would use, with `.jpg` as the
still-image extension. -/
def tier2CandidatesSpec (base_name : String) : List String :=
  searchCandidates (base_name ++ ".jpg") base_name ".jpg"

example : tier2CandidatesSpec "clip(1)" =
    ["clip(1).jpg.json", "clip(1).json", "clip.jpg(1).json"] := by decide

/-!
## Helper lemmas
-/

theorem isPrefixOf_append_self (a b : List Char) : a.isPrefixOf (a ++ b) = true := by
  induction a with
  | nil => cases b <;> rfl
  | cons x xs ih => simp [List.isPrefixOf, ih]

theorem lastSlashSplit_append (c p : List Char) :
    ∃ b a, lastSlashSplit (c ++ '/' :: p) = some (c ++ b, a) := by
  induction c with
  | nil =>
    cases h : lastSlashSplit p with
    | none => exact ⟨[], p, by simp [lastSlashSplit, h]⟩
    | some ba => exact ⟨'/' :: ba.1, ba.2, by simp [lastSlashSplit, h]⟩
  | cons x xs ih =>
    obtain ⟨b, a, h⟩ := ih
    exact ⟨b, a, by simp [lastSlashSplit, h]⟩

theorem destPath_data (c p : String) : (destPath c p).data = c.data ++ '/' :: p.data := by
  show (c.data ++ "/".data) ++ p.data = c.data ++ '/' :: p.data
  simp

/-- A file moved to its destination under `completed` is excluded by the scan. -/
theorem excludedDir_destPath (c p : String) : excludedDir c (destPath c p) = true := by
  obtain ⟨b, a, h⟩ := lastSlashSplit_append c.data p.data
  unfold excludedDir pyDirname pyStartswith
  rw [destPath_data, h]
  exact isPrefixOf_append_self c.data b

/-- `processed_files` as a function of the ledger. -/
def countProcessed : List FileResult → Nat
  | [] => 0
  | r :: rs => (if r.outcome = .processed then 1 else 0) + countProcessed rs

theorem foldl_stepMedia_results (env : Env) (c : String) (pool : List String) :
    ∀ (ms : List String) (st : RunState),
      (ms.foldl (stepMedia env c pool) st).results =
        st.results ++ ms.map (processMedia env c pool) := by
  intro ms
  induction ms with
  | nil => intro st; simp
  | cons p rest ih => intro st; simp [List.foldl, ih, stepMedia]

theorem foldl_stepMedia_count (env : Env) (c : String) (pool : List String) :
    ∀ (ms : List String) (st : RunState),
      (ms.foldl (stepMedia env c pool) st).processedCount =
        st.processedCount + countProcessed (ms.map (processMedia env c pool)) := by
  intro ms
  induction ms with
  | nil => intro st; simp [countProcessed]
  | cons p rest ih => intro st; simp [List.foldl, ih, stepMedia, countProcessed, Nat.add_assoc]

/-- The ledger of a run is exactly the per-file results, in order: every
media file gets an entry, independent of the others. -/
theorem runAll_results_eq (env : Env) (c : String) (pool : List String) (ms : List String) :
    (runAll env c pool ms).results = ms.map (processMedia env c pool) := by
  simpa [runAll] using foldl_stepMedia_results env c pool ms ⟨0, 0, []⟩

theorem runAll_count_eq (env : Env) (c : String) (pool : List String) (ms : List String) :
    (runAll env c pool ms).processedCount =
      countProcessed (ms.map (processMedia env c pool)) := by
  simpa [runAll] using foldl_stepMedia_count env c pool ms ⟨0, 0, []⟩

/-- A file ends up at the move destination when processed, and at its source
path otherwise. -/
theorem processMedia_finalPath (env : Env) (c : String) (pool : List String) (p : String) :
    (processMedia env c pool p).finalPath =
      if (processMedia env c pool p).outcome = .processed then destPath c p else p := by
  cases hf : find_json_for_media p pool with
  | none => simp [processMedia, hf]
  | some j => simp only [processMedia, hf]; split_ifs <;> simp_all

/-- The sidecar recorded for a file is the stateless resolution over the full
pool. -/
theorem processMedia_sidecarUsed (env : Env) (c : String) (pool : List String) (p : String) :
    (processMedia env c pool p).sidecarUsed = find_json_for_media p pool := by
  cases hf : find_json_for_media p pool with
  | none => simp [processMedia, hf]
  | some j => simp only [processMedia, hf]; split_ifs <;> rfl

/-- Rescanning the final paths of a batch of scanned files and processing
them again yields zero processed files: the processed ones moved under
`completed` and are excluded, the rest reproduce their non-`processed`
outcome. -/
theorem countProcessed_rescan (env : Env) (c : String) (pool : List String) :
    ∀ ms : List String, (∀ p ∈ ms, excludedDir c p = false) →
      countProcessed ((scanList c
          ((ms.map (processMedia env c pool)).map (·.finalPath))).map
        (processMedia env c pool)) = 0 := by
  intro ms
  induction ms with
  | nil => intro _; rfl
  | cons p rest ih =>
    intro hmem
    have hrest := fun q hq => hmem q (List.mem_cons_of_mem _ hq)
    have hp := hmem p (List.mem_cons_self _ _)
    by_cases hproc : (processMedia env c pool p).outcome = .processed
    · have hfp : (processMedia env c pool p).finalPath = destPath c p := by
        rw [processMedia_finalPath]; simp [hproc]
      simpa [scanList, List.filter_cons, hfp, excludedDir_destPath] using ih hrest
    · have hfp : (processMedia env c pool p).finalPath = p := by
        rw [processMedia_finalPath]; simp [hproc]
      simpa [scanList, List.filter_cons, hfp, hp, countProcessed, hproc] using ih hrest

theorem scanList_append (c : String) (a b : List String) :
    scanList c (a ++ b) = scanList c a ++ scanList c b := by
  simp [scanList]

/-- Environment in which `os.utime` raises for every path. -/
def utimeFailEnv : Env :=
  ⟨fun _ => false, fun _ => true, fun _ => false, fun _ => true, fun _ => false⟩

/-- Environment in which the internal-metadata write raises for every path
but everything else succeeds. -/
def writeFailEnv : Env :=
  ⟨fun _ => false, fun _ => true, fun _ => true, fun _ => false, fun _ => false⟩

/-- Environment in which every sidecar parses but none carries a
`photoTakenTime.timestamp`. -/
def noTsEnv : Env :=
  ⟨fun _ => false, fun _ => false, fun _ => false, fun _ => false, fun _ => false⟩

/-!
## Claims
-/

/-- C1 (counterexample): the claim that a resolved sidecar always lies in the
media file's directory is false — the exact-name phase looks names up in a
basename map built over all sidecars, so media `a/x.jpg` resolves to
`b/x.jpg.json` from a different directory. -/
theorem tier1_matches_across_directories :
    find_json_for_media "a/x.jpg" ["b/x.jpg.json"] = some "b/x.jpg.json" ∧
    pyDirname "b/x.jpg.json" ≠ pyDirname "a/x.jpg" := by decide

/-- C1 (amended): only the fallback tiers are directory-scoped.  When the
exact-reconstructed-name lookup misses, any sidecar returned by
`find_json_for_media` lies in the media file's own directory. -/
theorem fallback_tiers_same_directory (p : String) (pool : List String) (j : String)
    (hex : exactLookup p pool = none)
    (hres : find_json_for_media p pool = some j) :
    pyDirname j = pyDirname p := by
  simp only [find_json_for_media, hex] at hres
  cases hb : pool.find? (broaderPred (pyDirname p) (pyBasename p)) with
  | some f =>
    rw [hb] at hres
    have hpred := List.find?_some hb
    rw [broaderPred, Bool.and_eq_true] at hpred
    cases hres
    exact eq_of_beq hpred.1
  | none =>
    rw [hb] at hres
    have hpred := List.find?_some hres
    rw [fallbackPred, Bool.and_eq_true] at hpred
    exact eq_of_beq hpred.1

/-- Witness for C1's amended theorem at a concrete tier-3 resolution. -/
theorem fallback_tiers_same_directory_witness :
    exactLookup "d/abcd.jpg" ["d/ab.json"] = none ∧
    find_json_for_media "d/abcd.jpg" ["d/ab.json"] = some "d/ab.json" ∧
    pyDirname "d/ab.json" = pyDirname "d/abcd.jpg" :=
  ⟨by decide, by decide,
    fallback_tiers_same_directory "d/abcd.jpg" ["d/ab.json"] "d/ab.json"
      (by decide) (by decide)⟩

/-- C2 (counterexample): the claim that a sidecar is the resolved match for
at most one media file is false — nothing record sidecars as claimed, so
`a/x.jpg` and `a/x-edited.jpg` are both processed using `a/x.jpg.json`. -/
theorem sidecar_claimed_twice :
    (runAll allOkEnv "Completed" ["a/x.jpg.json"] ["a/x.jpg", "a/x-edited.jpg"]).results.map
        (·.sidecarUsed) = [some "a/x.jpg.json", some "a/x.jpg.json"] ∧
    (runAll allOkEnv "Completed" ["a/x.jpg.json"] ["a/x.jpg", "a/x-edited.jpg"]).processedCount
        = 2 := by decide

/-- C2 (amended): the run keeps no claimed-sidecar state at all — each media
file's ledger entry records exactly the stateless resolution over the full
sidecar pool, so the same sidecar may be the resolved match of arbitrarily
many media files. -/
theorem resolution_never_excludes_claimed (env : Env) (c : String)
    (pool : List String) (ms : List String) :
    (runAll env c pool ms).results.map (·.sidecarUsed) =
      ms.map (fun p => find_json_for_media p pool) := by
  rw [runAll_results_eq, List.map_map]
  have h : ((·.sidecarUsed) ∘ processMedia env c pool) =
      fun p => find_json_for_media p pool :=
    funext fun p => processMedia_sidecarUsed env c pool p
  rw [h]

/-- C3: relocation is the last mutating step — every media file gets exactly
one ledger entry (the loop never aborts), and a file whose processing does
not reach the move ends at its original source path. -/
theorem relocation_last_mutating_step (env : Env) (c : String) (pool : List String)
    (ms : List String) :
    (runAll env c pool ms).results = ms.map (processMedia env c pool) ∧
    ∀ p, (processMedia env c pool p).outcome ≠ Outcome.processed →
      (processMedia env c pool p).finalPath = p := by
  refine ⟨runAll_results_eq env c pool ms, fun p h => ?_⟩
  rw [processMedia_finalPath]
  simp [h]

/-- Witness for C3 at a file whose `os.utime` raises before the move. -/
theorem relocation_last_mutating_step_witness :
    (processMedia utimeFailEnv "Completed" ["a/x.jpg.json"] "a/x.jpg").outcome ≠
        Outcome.processed ∧
    (processMedia utimeFailEnv "Completed" ["a/x.jpg.json"] "a/x.jpg").finalPath = "a/x.jpg" :=
  ⟨by decide,
    (relocation_last_mutating_step utimeFailEnv "Completed" ["a/x.jpg.json"] ["a/x.jpg"]).2
      "a/x.jpg" (by decide)⟩

/-- C4: a failure of the internal metadata write is non-fatal — the file
still gets its filesystem timestamps set, is still moved to the destination
under `Completed`, and is still counted `processed`. -/
theorem internal_write_failure_nonfatal (env : Env) (c : String) (pool : List String)
    (p j : String)
    (hfind : find_json_for_media p pool = some j)
    (hread : env.readFails j = false)
    (hts : env.hasTimestamp j = true)
    (hw : env.writeFails p = true)
    (hu : env.utimeFails p = false)
    (hm : env.moveFails p = false) :
    processMedia env c pool p =
      ⟨Outcome.processed, destPath c p, true, false, some j⟩ := by
  simp [processMedia, hfind, hread, hts, hw, hu, hm]

/-- Witness for C4 in an environment where every internal write raises. -/
theorem internal_write_failure_nonfatal_witness :
    find_json_for_media "a/x.jpg" ["a/x.jpg.json"] = some "a/x.jpg.json" ∧
    processMedia writeFailEnv "Completed" ["a/x.jpg.json"] "a/x.jpg" =
      ⟨Outcome.processed, destPath "Completed" "a/x.jpg", true, false, some "a/x.jpg.json"⟩ :=
  ⟨by decide,
    internal_write_failure_nonfatal writeFailEnv "Completed" ["a/x.jpg.json"]
      "a/x.jpg" "a/x.jpg.json" (by decide) rfl rfl rfl rfl rfl⟩

/-- C5 (counterexample): there is no extension-substitution retry.  For media
`d/clip(1).mp4` the substituted Tier-1 candidate `clip.jpg(1).json` exists in
the same directory, yet resolution returns `none`. -/
theorem no_extension_substitution_tier :
    find_json_for_media "d/clip(1).mp4" ["d/clip.jpg(1).json"] = none ∧
    "clip.jpg(1).json" ∈ tier2CandidatesSpec "clip(1)" ∧
    pyBasename "d/clip.jpg(1).json" = "clip.jpg(1).json" ∧
    pyDirname "d/clip.jpg(1).json" = pyDirname "d/clip(1).mp4" ∧
    exactLookup "d/clip(1).mp4" ["d/clip.jpg(1).json"] = none := by decide

/-- C5 (amended): `clip.mp4` with `clip.jpg.json` and no `clip.mp4.json`
does resolve to `clip.jpg.json`, but through the final same-directory
fallback — the sidecar filename starts with the media stem `clip` — not
through any extension-substitution tier (the exact-name phase and the
broader prefix search both miss). -/
theorem video_resolves_via_final_fallback :
    find_json_for_media "d/clip.mp4" ["d/clip.jpg.json"] = some "d/clip.jpg.json" ∧
    exactLookup "d/clip.mp4" ["d/clip.jpg.json"] = none ∧
    ["d/clip.jpg.json"].find? (broaderPred "d" "clip.mp4") = none ∧
    fallbackPred "d" "clip.mp4" "clip" "d/clip.jpg.json" = true := by decide

/-- C6 (counterexample): the claim that the longest qualifying candidate is
selected is false — among qualifying same-directory sidecars `ab.json` and
`abc.json` for media `abcd.jpg`, the first in scan order wins although the
second is longer. -/
theorem first_candidate_wins_not_longest :
    find_json_for_media "d/abcd.jpg" ["d/ab.json", "d/abc.json"] = some "d/ab.json" ∧
    broaderPred "d" "abcd.jpg" "d/abc.json" = true ∧
    ("abc.json" : String).length > ("ab.json" : String).length := by decide

/-- C6 (amended): within the broader-search tier the selected candidate is
the first element of the sidecar list satisfying the predicate, in scan
order. -/
theorem tier_returns_first_in_scan_order (p : String) (pool : List String) (j : String)
    (hex : exactLookup p pool = none)
    (hfind : pool.find? (broaderPred (pyDirname p) (pyBasename p)) = some j) :
    find_json_for_media p pool = some j := by
  simp only [find_json_for_media, hex, hfind]

/-- Witness for C6's amended theorem. -/
theorem tier_returns_first_in_scan_order_witness :
    exactLookup "d/abcd.jpg" ["d/ab.json", "d/abc.json"] = none ∧
    ["d/ab.json", "d/abc.json"].find? (broaderPred "d" "abcd.jpg") = some "d/ab.json" ∧
    find_json_for_media "d/abcd.jpg" ["d/ab.json", "d/abc.json"] = some "d/ab.json" :=
  ⟨by decide, by decide,
    tier_returns_first_in_scan_order "d/abcd.jpg" ["d/ab.json", "d/abc.json"] "d/ab.json"
      (by decide) (by decide)⟩

/-- C7: a resolved sidecar without a capture timestamp is a terminal skip —
no internal metadata is written, the timestamps are untouched, and the file
stays at its source path. -/
theorem missing_timestamp_terminal_skip (env : Env) (c : String) (pool : List String)
    (p j : String)
    (hfind : find_json_for_media p pool = some j)
    (hread : env.readFails j = false)
    (hts : env.hasTimestamp j = false) :
    processMedia env c pool p =
      ⟨Outcome.skippedNoTimestamp, p, false, false, some j⟩ := by
  simp [processMedia, hfind, hread, hts]

/-- Witness for C7 in an environment where no sidecar has a timestamp. -/
theorem missing_timestamp_terminal_skip_witness :
    find_json_for_media "a/x.jpg" ["a/x.jpg.json"] = some "a/x.jpg.json" ∧
    processMedia noTsEnv "Completed" ["a/x.jpg.json"] "a/x.jpg" =
      ⟨Outcome.skippedNoTimestamp, "a/x.jpg", false, false, some "a/x.jpg.json"⟩ :=
  ⟨by decide,
    missing_timestamp_terminal_skip noTsEnv "Completed" ["a/x.jpg.json"]
      "a/x.jpg" "a/x.jpg.json" (by decide) rfl rfl⟩

/-- C8: the pipeline is idempotent across runs — a second run on the tree
left by a first run processes zero media files: processed files were moved
under `Completed` and the scan's prefix test excludes them, while every
remaining file reproduces its non-`processed` outcome against the unchanged
sidecar pool. -/
theorem second_run_processes_zero (env : Env) (c : String) (t : Tree) :
    (runOnce env c (runOnce env c t).2).1 = 0 := by
  unfold runOnce
  dsimp only
  rw [runAll_count_eq, runAll_results_eq, scanList_append]
  have hA : scanList c (t.media.filter (fun p => excludedDir c p)) = [] := by
    simp [scanList, List.filter_filter]
  rw [hA]
  simp only [List.nil_append]
  exact countProcessed_rescan env c _ _ (by
    intro p hp
    have h := (List.mem_filter.mp hp).2
    simpa using h)

/-- C9 (counterexample): the claim that GPS is written whenever `geoData` has
a nonzero latitude is false — with latitude 5 present but no `longitude` key
the lookup raises `KeyError`, the internal write aborts, and no GPS is
written. -/
theorem gps_dropped_when_longitude_missing :
    gpsWritten (some ⟨some 5, none⟩) = false ∧ ((5 : ℚ) ≠ 0) := by decide

/-- C9 (amended): GPS is written iff `geoData` is present with a latitude
field whose value is nonzero and a longitude field present; latitude exactly
0 is silently dropped, while longitude 0 with nonzero latitude is written. -/
theorem gps_written_iff_nonzero_lat_and_lon_present :
    (∀ geo : Option GeoData, gpsWritten geo = true ↔
      ∃ g lat lon, geo = some g ∧ g.latitude = some lat ∧ lat ≠ 0 ∧
        g.longitude = some lon) ∧
    gpsWritten (some ⟨some 0, some 37⟩) = false ∧
    gpsWritten (some ⟨some 12, some 0⟩) = true := by
  refine ⟨fun geo => ⟨fun h => ?_, ?_⟩, by decide, by decide⟩
  · match geo with
    | none => simp [gpsWritten, imageInternalWrite, buildGps] at h
    | some g =>
      match hl : g.latitude with
      | none => simp [gpsWritten, imageInternalWrite, buildGps, hl] at h
      | some lat =>
        by_cases hne : lat = 0
        · simp [gpsWritten, imageInternalWrite, buildGps, hl, hne] at h
        · match hlon : g.longitude with
          | none => simp [gpsWritten, imageInternalWrite, buildGps, hl, hne, hlon] at h
          | some lon => exact ⟨g, lat, lon, rfl, hl, hne, hlon⟩
  · rintro ⟨g, lat, lon, rfl, hlat, hne, hlon⟩
    simp [gpsWritten, imageInternalWrite, buildGps, hlat, hlon, hne]

/-- C10: the scan exclusion is a plain string-prefix test — any media file
whose directory string starts with the output directory's string is excluded
from the scan, which also catches sibling directories such as
`Completed2`. -/
theorem scan_exclusion_string_prefix_test (c : String) (l : List String) (p : String)
    (h : pyStartswith (pyDirname p) c = true) :
    ¬ p ∈ scanList c l := by
  intro hp
  have hcond := (List.mem_filter.mp hp).2
  simp only [excludedDir, Bool.not_eq_true'] at hcond
  rw [h] at hcond
  cases hcond

/-- Witness for C10: `Completed2` is a sibling of `Completed`, not inside
it, yet its media file is excluded from scanning. -/
theorem scan_exclusion_string_prefix_test_witness :
    pyStartswith (pyDirname "Completed2/x.jpg") "Completed" = true ∧
    pyDirname "Completed2/x.jpg" ≠ "Completed" ∧
    ¬ "Completed2/x.jpg" ∈ scanList "Completed" ["Completed2/x.jpg"] :=
  ⟨by decide, by decide,
    scan_exclusion_string_prefix_test "Completed" ["Completed2/x.jpg"] "Completed2/x.jpg"
      (by decide)⟩

end MergeMetadata
